import Mathlib

/-!
# Verification of the simulation-log client core

A shallow embedding of the core logic of `script.js` (and its earlier
variants) of the `thesimulationlog.com` repository: the date-value
function `parseSimDate`, the era classifier `getEra`, the filter/sort
engine `getFilteredLogs`, the shard cache (`loadDataset`,
`rebuildAllLogs`), the ticker selection in `renderTicker`, and the
response-field extraction of `runDiagnostic`.

Modelling conventions:
* JavaScript numbers are modelled exactly: `JsNum` distinguishes `NaN`,
  `-Infinity`, `+Infinity` and finite values; finite values are exact
  fractions (`Frac`, an integer numerator over a positive power-of-ten
  style denominator).  IEEE-754 rounding is abstracted away (every value
  the program manipulates is reproduced exactly as a rational).
* JavaScript strings are Lean `String`s; `toLowerCase` is per-character
  lowercasing; `includes` is substring containment; `trim` strips
  whitespace from both ends.
* A `LogRecord` value models one JS record object; equality of values
  models reference identity (`===` on objects), since each loaded record
  is a distinct object.
* The mutable globals `loadedData`, `allLogs`, `activeFilters` form an
  explicit `AppState`; `loadedData` is an insertion-ordered association
  list, as JS object keys (non-numeric file paths) preserve insertion
  order.
* `fetch` is modelled by an oracle `net : String → Option (List LogRecord)`
  (`none` = network failure, non-2xx status or JSON error; the `catch`
  branch of `loadDataset`).
* `Array.prototype.sort` is modelled by a stable insertion sort driven by
  the ES `SortCompare` interpretation of the comparator (a `NaN`
  comparator result counts as `+0`); the ES specification requires a
  stable sort consistent with the comparator, which this realises.
-/

namespace SimLog

/-! ## The embedded program: numbers, strings, date parsing -/

/-- An exact fraction: `num / den`.  All fractions built by the program
have a positive denominator (a power of ten, possibly multiplied by
another such power). -/
structure Frac where
  num : Int
  den : Nat
deriving DecidableEq, Repr

/-- A JavaScript number as the program uses it: `NaN`, the two
infinities, or an exact finite value. -/
inductive JsNum where
  | nan    : JsNum
  | negInf : JsNum
  | posInf : JsNum
  | num    : Frac → JsNum
deriving DecidableEq, Repr

/-- A finite JS number with integer value `n`. -/
def JsNum.int (n : Int) : JsNum := .num ⟨n, 1⟩

/-- JS multiplication of a number by an integer constant (used for the
`billion` / `million` multipliers and the `ago` / `bc` negation). -/
def jsMulInt : JsNum → Int → JsNum
  | .nan, _ => .nan
  | .negInf, c => if 0 < c then .negInf else if c < 0 then .posInf else .nan
  | .posInf, c => if 0 < c then .posInf else if c < 0 then .negInf else .nan
  | .num f, c => .num ⟨f.num * c, f.den⟩

/-- JS subtraction `a - b` (the sort comparator computes `valA - valB`
or `valB - valA`). -/
def jsSub : JsNum → JsNum → JsNum
  | .nan, _ => .nan
  | _, .nan => .nan
  | .negInf, .negInf => .nan
  | .negInf, _ => .negInf
  | .posInf, .posInf => .nan
  | .posInf, _ => .posInf
  | .num _, .negInf => .posInf
  | .num _, .posInf => .negInf
  | .num f, .num g => .num ⟨f.num * (g.den : Int) - g.num * (f.den : Int), f.den * g.den⟩

/-- ES `SortCompare` interpretation of a comparator result: `NaN` is
treated as `+0`; this returns `true` when the result is `≤ 0`, i.e. when
the first element may stay before the second. -/
def jsLeZero : JsNum → Bool
  | .nan => true
  | .negInf => true
  | .posInf => false
  | .num f => decide (f.num ≤ 0)

/-- The JS `>=` operator on numbers: `false` whenever either side is
`NaN`. -/
def jsGe : JsNum → JsNum → Bool
  | .nan, _ => false
  | _, .nan => false
  | .posInf, _ => true
  | _, .posInf => false
  | .negInf, .negInf => true
  | .negInf, .num _ => false
  | .num _, .negInf => true
  | .num f, .num g => decide (g.num * (f.den : Int) ≤ f.num * (g.den : Int))

/-- A character of the class `[\d\.]` in the regex of `parseSimDate`. -/
def isNumChar (c : Char) : Bool := c.isDigit || c == '.'

/-- Per-character lowercasing; models `String.prototype.toLowerCase`
(locale-independent simple case mapping, which is what the program's
ASCII data exercises). -/
def toLowerCase (s : String) : String := ⟨s.data.map Char.toLower⟩

/-- `needle.isPrefixOf hay ∨ search the tail`: substring containment on
character lists. -/
def subSearch (needle : List Char) : List Char → Bool
  | [] => needle.isEmpty
  | c :: t => List.isPrefixOf needle (c :: t) || subSearch needle t

/-- Models `hay.includes(needle)` on JS strings. -/
def strIncludes (hay needle : String) : Bool := subSearch needle.data hay.data

/-- The numeric value of a run of decimal digits. -/
def digitsToNat (cs : List Char) : Nat :=
  cs.foldl (fun n c => 10 * n + (c.toNat - 48)) 0

/-- The first maximal run of characters matching `[\d\.]+`, scanning
left to right; `none` when no character of the class occurs (the regex
fails to match). -/
def firstNumRun : List Char → Option (List Char)
  | [] => none
  | c :: t => if isNumChar c then some (c :: t.takeWhile isNumChar) else firstNumRun t

/-- The first maximal run of characters matching `\d+` (the crude year
extractor of `getEra`). -/
def firstDigitRun : List Char → Option (List Char)
  | [] => none
  | c :: t => if c.isDigit then some (c :: t.takeWhile Char.isDigit) else firstDigitRun t

/-- `parseFloat` applied to a nonempty run of digits and dots: the
longest valid prefix is `digits* ('.' digits*)?`; it must contain at
least one digit, otherwise the result is `NaN` (e.g. `parseFloat "."`). -/
def parseFloatRun (cs : List Char) : JsNum :=
  let intPart := cs.takeWhile Char.isDigit
  let rest := cs.dropWhile Char.isDigit
  let fracPart := match rest with
    | '.' :: r2 => r2.takeWhile Char.isDigit
    | _ => []
  if intPart = [] ∧ fracPart = [] then .nan
  else .num ⟨(digitsToNat intPart : Int) * (10 ^ fracPart.length : Nat) + (digitsToNat fracPart : Int),
             10 ^ fracPart.length⟩

/-- `parseSimDate` of `script.js` (lines 142-167): empty input gives
`-Infinity`; `present` gives `2026`; `future` gives `3000`; otherwise
the first `[\d\.]+` run is `parseFloat`-ed (no run: fallback `0`),
scaled by `billion` / `million`, and negated on `ago` / `bc`. -/
def parseSimDate (dateString : String) : JsNum :=
  if dateString = "" then .negInf
  else
    let lower := toLowerCase dateString
    if strIncludes lower "present" then .int 2026
    else if strIncludes lower "future" || strIncludes lower "near future" then .int 3000
    else
      match firstNumRun lower.data with
      | none => .int 0
      | some run =>
        let val := parseFloatRun run
        let val := if strIncludes lower "billion" then jsMulInt val 1000000000
                   else if strIncludes lower "million" then jsMulInt val 1000000
                   else val
        if strIncludes lower "ago" || strIncludes lower "bc" then jsMulInt val (-1) else val

/-! ## Data model and operations -/

/-- One log record as `script.js` reads it.  Equality of `LogRecord`
values models `===` on the JS record objects (each fetched record is a
distinct object; `Array.prototype.includes` compares by identity).
`keywords` is `none` when the field is absent; `is_active` is `none`
when the field is absent (`is_active === true` only for `some true`). -/
structure LogRecord where
  id : Nat
  version : String
  date : String
  title : String
  description : String
  type : String
  region : String
  tags : List String
  importance : String
  is_active : Option Bool
  keywords : Option (List String)
deriving DecidableEq, Repr

/-- The `activeFilters` object of `script.js` (lines 18-25). -/
structure ActiveFilters where
  search : String
  selectedPeriods : List String
  region : String
  criticalOnly : Bool
  verbose : Bool
  sort : String
deriving DecidableEq, Repr

/-- The mutable globals of `script.js`: the shard cache `loadedData`
(insertion-ordered map from file path to loaded record array), the
merged `allLogs` array and the `activeFilters` object. -/
structure AppState where
  loadedData : List (String × List LogRecord)
  allLogs : List LogRecord
  activeFilters : ActiveFilters
deriving DecidableEq, Repr

/-- `loadedData[filePath]`: `none` models `undefined` (key absent). -/
def lookupData (ld : List (String × List LogRecord)) (filePath : String) :
    Option (List LogRecord) :=
  (ld.find? (fun p => p.1 == filePath)).map (·.2)

/-- `arr.includes(log)` on an array of record objects (SameValueZero, i.e.
reference identity on objects). -/
def jsIncludes (arr : List LogRecord) (log : LogRecord) : Bool :=
  arr.any (fun x => decide (x = log))

/-- `rebuildAllLogs` (lines 74-79): `allLogs = []` then
`allLogs = allLogs.concat(dataset)` over `Object.values(loadedData)` in
insertion order. -/
def rebuildAllLogs (ld : List (String × List LogRecord)) : List LogRecord :=
  ld.foldl (fun acc p => acc ++ p.2) []

/-- The predicate of the `allLogs.filter(...)` callback in
`getFilteredLogs` (lines 172-215): selected-period membership, then
granularity, search, region and severity. -/
def logPasses (st : AppState) (log : LogRecord) : Bool :=
  let f := st.activeFilters
  let fromSelectedPeriod := f.selectedPeriods.any (fun filePath =>
    match lookupData st.loadedData filePath with
    | some arr => jsIncludes arr log
    | none => false)
  if !fromSelectedPeriod then false
  else if !f.verbose && log.importance == "low" then false
  else
    let searchLower := toLowerCase f.search
    let matchesSearch := strIncludes (toLowerCase log.title) searchLower
      || strIncludes (toLowerCase log.description) searchLower
      || strIncludes (toLowerCase log.version) searchLower
      || (match log.keywords with
          | some ks => ks.any (fun k => strIncludes (toLowerCase k) searchLower)
          | none => false)
    let logRegion := toLowerCase log.region
    let filterRegion := toLowerCase f.region
    let matchesRegion :=
      if filterRegion == "all" then true
      else if filterRegion == "sol_system" then
        ["mars", "moon", "solar", "earth", "global_earth"].any
          (fun k => strIncludes logRegion k)
      else strIncludes logRegion filterRegion
    let matchesSeverity := !f.criticalOnly || log.type == "Critical Event"
      || log.is_active == some true
    matchesSearch && matchesRegion && matchesSeverity

/-- The comparator of `filtered.sort(...)` (lines 218-227):
`valA - valB` for `date-asc`, `valB - valA` otherwise. -/
def sortCompare (sortStr : String) (a b : LogRecord) : JsNum :=
  let valA := parseSimDate a.date
  let valB := parseSimDate b.date
  if sortStr == "date-asc" then jsSub valA valB else jsSub valB valA

/-- Stable insertion of `x` before the first element it need not follow
(comparator result `≤ 0`, with `NaN` treated as `0` per ES SortCompare). -/
def insertLe (le : LogRecord → LogRecord → Bool) (x : LogRecord) :
    List LogRecord → List LogRecord
  | [] => [x]
  | y :: ys => if le x y then x :: y :: ys else y :: insertLe le x ys

/-- A stable comparator sort; models `Array.prototype.sort` (the ES
specification requires a stable sort consistent with the comparator). -/
def isort (le : LogRecord → LogRecord → Bool) : List LogRecord → List LogRecord
  | [] => []
  | x :: xs => insertLe le x (isort le xs)

/-- `getFilteredLogs` (lines 170-230): filter `allLogs` by
`logPasses`, then sort by the date comparator. -/
def getFilteredLogs (st : AppState) : List LogRecord :=
  isort (fun a b => jsLeZero (sortCompare st.activeFilters.sort a b))
    (st.allLogs.filter (logPasses st))

/-- The `activeLogs` selection of `renderTicker` (line 234): records of
`allLogs` with `is_active === true`, independent of `activeFilters`. -/
def tickerActiveLogs (st : AppState) : List LogRecord :=
  st.allLogs.filter (fun log => log.is_active == some true)

/-- `loadDataset` (lines 55-71) with the fetch modelled by the oracle
`net` (`none` = failure).  Returns the new state and the number of
fetches issued (0 or 1).  A cache hit returns immediately; a successful
fetch appends the shard to the cache and rebuilds `allLogs`; a failed
fetch is caught and leaves the state unchanged. -/
def loadDataset (net : String → Option (List LogRecord)) (st : AppState)
    (filePath : String) : AppState × Nat :=
  match lookupData st.loadedData filePath with
  | some _ => (st, 0)
  | none =>
    match net filePath with
    | some data =>
      let ld := st.loadedData ++ [(filePath, data)]
      ({ st with loadedData := ld, allLogs := rebuildAllLogs ld }, 1)
    | none => (st, 1)

/-- The click handler installed by `createFilterButton` (lines 107-123):
deselect if selected, otherwise `loadDataset` then push the file path
onto `selectedPeriods` (regardless of whether the load succeeded). -/
def toggleFilterButton (net : String → Option (List LogRecord)) (st : AppState)
    (filePath : String) : AppState × Nat :=
  if st.activeFilters.selectedPeriods.contains filePath then
    ({ st with activeFilters := { st.activeFilters with
        selectedPeriods := st.activeFilters.selectedPeriods.filter (fun f => f != filePath) } }, 0)
  else
    let r := loadDataset net st filePath
    ({ r.1 with activeFilters := { r.1.activeFilters with
        selectedPeriods := r.1.activeFilters.selectedPeriods ++ [filePath] } }, r.2)

/-- The `severityToggle` change handler (lines 336-339): sets
`criticalOnly` and re-renders. -/
def setCriticalOnly (st : AppState) (b : Bool) : AppState :=
  { st with activeFilters := { st.activeFilters with criticalOnly := b } }

/-- The era classifier `getEra` of the earlier script variant
(`src/unnamed/part_001`, lines 91-115).  Empty input models a missing
date (`!dateString`).  The keyword checks run on the lowercased string;
the year regex `(\d+)` runs on the original string. -/
def getEra (dateString : String) : String :=
  if dateString = "" then "modern"
  else
    let lowerDate := toLowerCase dateString
    if strIncludes lowerDate "billion" || strIncludes lowerDate "million"
        || strIncludes lowerDate "bc" || strIncludes lowerDate "pre-history" then "pre-history"
    else if strIncludes lowerDate "present" || strIncludes lowerDate "future" then "future"
    else
      match firstDigitRun dateString.data with
      | some ds =>
        let year := digitsToNat ds
        if year < 1500 then "antiquity"
        else if year > 2025 then "future"
        else "modern"
      | none => "modern"

/-- Well-formedness of values `parseSimDate` can return: never `+Infinity`,
and finite values have a positive denominator. -/
def WfNum : JsNum → Prop
  | .posInf => False
  | .num f => 0 < f.den
  | _ => True

/-- Models `String.prototype.trim`: strips whitespace from both ends. -/
def jsTrim (s : String) : String :=
  ⟨((s.data.dropWhile Char.isWhitespace).reverse.dropWhile Char.isWhitespace).reverse⟩

/-- The JSON body of a diagnostic response: the seven alternately-named
text fields `runDiagnostic` probes (`src/unnamed/part_000`, line 579);
`none` models an absent field. -/
structure DiagData where
  reply : Option String
  response : Option String
  text : Option String
  result : Option String
  output : Option String
  message : Option String
  content : Option String
deriving DecidableEq, Repr

/-- JS `a || b` on field values: an absent (`undefined`) or empty-string
value is falsy and falls through to `b`. -/
def jsOrStr : Option String → Option String → Option String
  | some s, y => if s = "" then y else some s
  | none, y => y

/-- `data.reply || data.response || data.text || data.result ||
data.output || data.message || data.content`. -/
def extractResponseText (d : DiagData) : Option String :=
  jsOrStr d.reply (jsOrStr d.response (jsOrStr d.text (jsOrStr d.result
    (jsOrStr d.output (jsOrStr d.message d.content)))))

/-- The network outcome of the diagnostic POST: network error, or an
HTTP response with `ok` status flag and parsed JSON body (`none` =
body failed to parse as the expected object). -/
inductive FetchOutcome where
  | netError : FetchOutcome
  | httpResponse (ok : Bool) (body : Option DiagData) : FetchOutcome
deriving DecidableEq, Repr

/-- What the diagnostic terminal displays: the generated text (typed via
the typewriter effect), or the labeled inline error line. -/
inductive DiagOutcome where
  | shown (t : String) : DiagOutcome
  | errorShown : DiagOutcome
deriving DecidableEq, Repr

/-- The `try`/`catch` result of `runDiagnostic` (lines 561-608): non-ok
status throws, a missing/falsy `responseText` throws, otherwise the
trimmed text is displayed; every `throw` lands in the `catch` which
prints the labeled error line. -/
def runDiagnosticOutcome : FetchOutcome → DiagOutcome
  | .netError => .errorShown
  | .httpResponse ok body =>
    if !ok then .errorShown
    else match body with
      | none => .errorShown
      | some d =>
        match extractResponseText d with
        | none => .errorShown
        | some s => if s = "" then .errorShown else .shown (jsTrim s)

/-- The first field value that is present with a non-empty string. -/
def firstNonEmpty : List (Option String) → Option String
  | [] => none
  | o :: rest =>
    match o with
    | some s => if s = "" then firstNonEmpty rest else some s
    | none => firstNonEmpty rest

/-- The probed fields, in the order of the `||` chain. -/
def diagFields (d : DiagData) : List (Option String) :=
  [d.reply, d.response, d.text, d.result, d.output, d.message, d.content]

def outcomeOf : Option String → DiagOutcome
  | none => .errorShown
  | some s => if s = "" then .errorShown else .shown (jsTrim s)

def orChain : List (Option String) → Option String
  | [] => none
  | [o] => o
  | o :: rest => jsOrStr o (orChain rest)

/-! ## Concrete data for witnesses and counterexamples -/

def wRec : LogRecord :=
  { id := 1, version := "v1.0", date := "1945", title := "Trinity", description := "test",
    type := "Critical Event", region := "Global_Earth", tags := [], importance := "high",
    is_active := some false, keywords := some ["nuclear"] }

def wState : AppState :=
  { loadedData := [("yearly/1945.json", [wRec])],
    allLogs := rebuildAllLogs [("yearly/1945.json", [wRec])],
    activeFilters := { search := "", selectedPeriods := ["yearly/1945.json"], region := "all",
                       criticalOnly := false, verbose := false, sort := "date-desc" } }

def wData : List LogRecord := [wRec]

def wNet : String → Option (List LogRecord) := fun fp =>
  if fp = "yearly/1945.json" then some wData else none

def failNet : String → Option (List LogRecord) := fun _ => none

def emptyState : AppState :=
  { loadedData := [], allLogs := [],
    activeFilters := { search := "", selectedPeriods := [], region := "all",
                       criticalOnly := false, verbose := false, sort := "date-desc" } }

def failState : AppState :=
  { loadedData := [("yearly/1945.json", wData)],
    allLogs := rebuildAllLogs [("yearly/1945.json", wData)],
    activeFilters := { search := "", selectedPeriods := ["yearly/1945.json"], region := "all",
                       criticalOnly := false, verbose := false, sort := "date-desc" } }

def tickRec : LogRecord :=
  { id := 2, version := "v2.0", date := "Present Day", title := "Ongoing", description := "live",
    type := "Live Event", region := "Global_Earth", tags := [], importance := "high",
    is_active := some true, keywords := none }

def tickState1 : AppState :=
  { loadedData := [("yearly/2026.json", [tickRec, wRec])],
    allLogs := rebuildAllLogs [("yearly/2026.json", [tickRec, wRec])],
    activeFilters := { search := "", selectedPeriods := ["yearly/2026.json"], region := "all",
                       criticalOnly := false, verbose := false, sort := "date-desc" } }

def tickState2 : AppState :=
  { loadedData := [("yearly/2026.json", [tickRec, wRec])],
    allLogs := rebuildAllLogs [("yearly/2026.json", [tickRec, wRec])],
    activeFilters := { search := "glitch", selectedPeriods := [], region := "mars",
                       criticalOnly := true, verbose := true, sort := "date-asc" } }

def emptyReplyData : DiagData :=
  { reply := some "", response := some "hello", text := none, result := none,
    output := none, message := none, content := none }

def onlyEmptyData : DiagData :=
  { reply := some "", response := none, text := none, result := none,
    output := none, message := none, content := none }


/-- A record whose date parses to `5`. -/
def nanRec1 : LogRecord :=
  { id := 11, version := "v1", date := "5", title := "A", description := "d",
    type := "Update", region := "Earth", tags := [], importance := "high",
    is_active := none, keywords := none }

/-- A record whose date `"a.b"` parses to `NaN` (dot-only regex match). -/
def nanRec2 : LogRecord :=
  { id := 12, version := "v2", date := "a.b", title := "B", description := "d",
    type := "Update", region := "Earth", tags := [], importance := "high",
    is_active := none, keywords := none }

/-- A record whose date parses to `3`. -/
def nanRec3 : LogRecord :=
  { id := 13, version := "v3", date := "3", title := "C", description := "d",
    type := "Update", region := "Earth", tags := [], importance := "high",
    is_active := none, keywords := none }

/-- A state whose shard holds a `NaN`-dated record between two dated ones. -/
def nanState : AppState :=
  { loadedData := [("shard.json", [nanRec1, nanRec2, nanRec3])],
    allLogs := rebuildAllLogs [("shard.json", [nanRec1, nanRec2, nanRec3])],
    activeFilters := { search := "", selectedPeriods := ["shard.json"], region := "all",
                       criticalOnly := false, verbose := false, sort := "date-desc" } }

/-- A state with only well-behaved (non-`NaN`) dates. -/
def sortState : AppState :=
  { loadedData := [("shard2.json", [nanRec1, nanRec3])],
    allLogs := rebuildAllLogs [("shard2.json", [nanRec1, nanRec3])],
    activeFilters := { search := "", selectedPeriods := ["shard2.json"], region := "all",
                       criticalOnly := false, verbose := false, sort := "date-desc" } }

/-! ## Supporting lemmas -/

lemma toNat_ofNat_valid (n : Nat) (h : n.isValidChar) : (Char.ofNat n).toNat = n := by
  unfold Char.ofNat
  rw [dif_pos h]
  rfl

lemma isNumChar_false_of_gt (ch : Char) (h : 57 < ch.toNat) : isNumChar ch = false := by
  have hd : ch.isDigit = false := by
    unfold Char.isDigit
    simp only [Bool.and_eq_false_iff, decide_eq_false_iff_not]
    right
    intro hle
    have h1 : ch.val.toBitVec ≤ (57 : UInt32).toBitVec := UInt32.le_def.mp hle
    have h2 : ch.val.toBitVec.toNat ≤ 57 := by
      have := BitVec.le_def.mp h1
      simpa using this
    have : ch.toNat ≤ 57 := h2
    omega
  have hdot : (ch == '.') = false := by
    simp only [beq_eq_false_iff_ne, ne_eq]
    intro he
    subst he
    exact absurd h (by decide)
  simp [isNumChar, hd, hdot]

/-- Lowercasing never turns a character into a digit or a dot. -/
lemma isNumChar_toLower (c : Char) : isNumChar (Char.toLower c) = isNumChar c := by
  show isNumChar (if c.toNat ≥ 65 ∧ c.toNat ≤ 90 then Char.ofNat (c.toNat + 32) else c) = isNumChar c
  by_cases hc : c.toNat ≥ 65 ∧ c.toNat ≤ 90
  · rw [if_pos hc]
    obtain ⟨h1, h2⟩ := hc
    rw [isNumChar_false_of_gt c (by omega), isNumChar_false_of_gt]
    rw [toNat_ofNat_valid]
    · omega
    · left; omega
  · rw [if_neg hc]

lemma subSearch_iff (needle hay : List Char) : subSearch needle hay = true ↔ needle <:+: hay := by
  induction hay with
  | nil => simp [subSearch, List.isEmpty_iff, List.infix_nil]
  | cons c t ih =>
    rw [subSearch, Bool.or_eq_true, ih, List.isPrefixOf_iff_prefix, List.infix_cons_iff]

lemma strIncludes_trans_of_infix (hay : String) (n1 n2 : String)
    (h : strIncludes hay n1 = false) (hsub : n1.data <:+: n2.data) :
    strIncludes hay n2 = false := by
  rw [strIncludes] at h ⊢
  by_contra hc
  rw [Bool.not_eq_false, subSearch_iff] at hc
  rw [← Bool.not_eq_true, subSearch_iff] at h
  exact h (hsub.trans hc)

lemma firstNumRun_eq_none (cs : List Char) (h : ∀ c ∈ cs, isNumChar c = false) :
    firstNumRun cs = none := by
  induction cs with
  | nil => rfl
  | cons c t ih =>
    rw [firstNumRun, if_neg]
    · exact ih fun x hx => h x (List.mem_cons_of_mem c hx)
    · simp [h c (List.mem_cons_self c t)]

lemma mem_insertLe (le : LogRecord → LogRecord → Bool) (x a : LogRecord)
    (l : List LogRecord) : a ∈ insertLe le x l ↔ a = x ∨ a ∈ l := by
  induction l with
  | nil => simp [insertLe]
  | cons y ys ih =>
    rw [insertLe]
    split
    · simp
    · simp [ih]
      tauto

lemma mem_isort (le : LogRecord → LogRecord → Bool) (a : LogRecord)
    (l : List LogRecord) : a ∈ isort le l ↔ a ∈ l := by
  induction l with
  | nil => simp [isort]
  | cons x xs ih => rw [isort, mem_insertLe, ih]; simp

lemma rebuildAllLogs_eq (ld : List (String × List LogRecord)) :
    rebuildAllLogs ld = (ld.map Prod.snd).flatten := by
  rw [rebuildAllLogs]
  suffices h : ∀ acc, ld.foldl (fun acc p => acc ++ p.2) acc
      = acc ++ (ld.map Prod.snd).flatten by simpa using h []
  induction ld with
  | nil => simp
  | cons p t ih => intro acc; simp [List.foldl_cons, ih]

lemma mem_rebuild_of_lookup {ld : List (String × List LogRecord)} {fp : String}
    {arr : List LogRecord} {r : LogRecord}
    (hlk : lookupData ld fp = some arr) (hr : r ∈ arr) :
    r ∈ rebuildAllLogs ld := by
  rw [rebuildAllLogs_eq, List.mem_flatten]
  rw [lookupData] at hlk
  obtain ⟨p, hp, hp2⟩ : ∃ p, ld.find? (fun p => p.1 == fp) = some p ∧ p.2 = arr := by
    cases h : ld.find? (fun p => p.1 == fp) with
    | none => rw [h] at hlk; simp at hlk
    | some p => rw [h] at hlk; simp at hlk; exact ⟨p, rfl, hlk⟩
  exact ⟨p.2, List.mem_map_of_mem Prod.snd (List.mem_of_find?_eq_some hp), hp2 ▸ hr⟩

lemma ite_chain (a b c : Bool) :
    (if !a then false else if b then false else c) = (a && !b && c) := by
  cases a <;> cases b <;> simp

lemma match_lookup_iff (o : Option (List LogRecord)) (r : LogRecord) :
    (match o with | some arr => jsIncludes arr r | none => false) = true ↔
      ∃ arr, o = some arr ∧ r ∈ arr := by
  cases o <;> simp [jsIncludes, List.any_eq_true]

lemma match_kw_iff (o : Option (List String)) (p : String → Bool) :
    (match o with | some ks => ks.any p | none => false) = true ↔
      ∃ ks, o = some ks ∧ ∃ k ∈ ks, p k = true := by
  cases o <;> simp [List.any_eq_true]

lemma region_ite_iff (fr lr : String) :
    ((if fr == "all" then true
      else if fr == "sol_system" then
        ["mars", "moon", "solar", "earth", "global_earth"].any (fun k => strIncludes lr k)
      else strIncludes lr fr) = true) ↔
      (fr = "all" ∨
       (fr = "sol_system" ∧ ∃ kw ∈ ["mars", "moon", "solar", "earth", "global_earth"],
          strIncludes lr kw = true) ∨
       (fr ≠ "all" ∧ fr ≠ "sol_system" ∧ strIncludes lr fr = true)) := by
  by_cases h1 : fr = "all"
  · simp [h1]
  · by_cases h2 : fr = "sol_system"
    · simp [h1, h2, List.any_eq_true]
    · simp [h1, h2]

lemma logPasses_iff (st : AppState) (r : LogRecord) :
    logPasses st r = true ↔
      ((∃ fp ∈ st.activeFilters.selectedPeriods, ∃ arr,
          lookupData st.loadedData fp = some arr ∧ r ∈ arr) ∧
       (st.activeFilters.verbose = true ∨ r.importance ≠ "low") ∧
       (strIncludes (toLowerCase r.title) (toLowerCase st.activeFilters.search) = true ∨
        strIncludes (toLowerCase r.description) (toLowerCase st.activeFilters.search) = true ∨
        strIncludes (toLowerCase r.version) (toLowerCase st.activeFilters.search) = true ∨
        (∃ ks, r.keywords = some ks ∧ ∃ k ∈ ks,
          strIncludes (toLowerCase k) (toLowerCase st.activeFilters.search) = true)) ∧
       (toLowerCase st.activeFilters.region = "all" ∨
        (toLowerCase st.activeFilters.region = "sol_system" ∧
         ∃ kw ∈ ["mars", "moon", "solar", "earth", "global_earth"],
           strIncludes (toLowerCase r.region) kw = true) ∨
        (toLowerCase st.activeFilters.region ≠ "all" ∧
         toLowerCase st.activeFilters.region ≠ "sol_system" ∧
         strIncludes (toLowerCase r.region) (toLowerCase st.activeFilters.region) = true)) ∧
       (st.activeFilters.criticalOnly = false ∨ r.type = "Critical Event" ∨
        r.is_active = some true)) := by
  rw [logPasses]
  simp only []
  rw [ite_chain]
  simp only [Bool.and_eq_true, Bool.or_eq_true, List.any_eq_true, match_lookup_iff,
    match_kw_iff, region_ite_iff]
  simp only [Bool.not_eq_true', Bool.not_eq_false', Bool.and_eq_false_iff,
    Bool.not_eq_false, beq_iff_eq, beq_eq_false_iff_ne, ne_eq, decide_eq_true_iff,
    and_assoc, or_assoc]

lemma pairwise_insertLe (le : LogRecord → LogRecord → Bool) (x : LogRecord)
    (l : List LogRecord)
    (hl : l.Pairwise (fun a b => le a b = true))
    (hcomp : ∀ b ∈ l, le x b = true ∨ le b x = true)
    (htrans : ∀ b ∈ l, ∀ c ∈ l, le x b = true → le b c = true → le x c = true) :
    (insertLe le x l).Pairwise (fun a b => le a b = true) := by
  induction l with
  | nil => simp [insertLe]
  | cons y ys ih =>
    rw [insertLe]
    obtain ⟨hy_rest, hys⟩ := List.pairwise_cons.mp hl
    by_cases hxy : le x y = true
    · rw [if_pos hxy]
      refine List.Pairwise.cons ?_ hl
      intro b hb
      rcases List.mem_cons.mp hb with rfl | hb2
      · exact hxy
      · exact htrans y (List.mem_cons_self _ _) b (List.mem_cons_of_mem _ hb2) hxy
          (hy_rest b hb2)
    · rw [if_neg hxy]
      refine List.Pairwise.cons ?_ (ih hys ?_ ?_)
      · intro b hb
        rcases (mem_insertLe le x b ys).mp hb with rfl | hb2
        · rcases hcomp y (List.mem_cons_self _ _) with h | h
          · exact absurd h hxy
          · exact h
        · exact hy_rest b hb2
      · intro b hb
        exact hcomp b (List.mem_cons_of_mem _ hb)
      · intro b hb c hc
        exact htrans b (List.mem_cons_of_mem _ hb) c (List.mem_cons_of_mem _ hc)

lemma pairwise_isort (le : LogRecord → LogRecord → Bool) (l : List LogRecord)
    (htot : ∀ a ∈ l, ∀ b ∈ l, le a b = true ∨ le b a = true)
    (htrans : ∀ a ∈ l, ∀ b ∈ l, ∀ c ∈ l, le a b = true → le b c = true → le a c = true) :
    (isort le l).Pairwise (fun a b => le a b = true) := by
  induction l with
  | nil => simp [isort]
  | cons x xs ih =>
    rw [isort]
    apply pairwise_insertLe
    · exact ih
        (fun a ha b hb => htot a (List.mem_cons_of_mem _ ha) b (List.mem_cons_of_mem _ hb))
        (fun a ha b hb c hc => htrans a (List.mem_cons_of_mem _ ha)
          b (List.mem_cons_of_mem _ hb) c (List.mem_cons_of_mem _ hc))
    · intro b hb
      rw [mem_isort] at hb
      exact htot x (List.mem_cons_self _ _) b (List.mem_cons_of_mem _ hb)
    · intro b hb c hc
      rw [mem_isort] at hb
      rw [mem_isort] at hc
      exact htrans x (List.mem_cons_self _ _) b (List.mem_cons_of_mem _ hb)
        c (List.mem_cons_of_mem _ hc)

lemma wf_parseFloatRun (cs : List Char) : WfNum (parseFloatRun cs) ∧ parseFloatRun cs ≠ .negInf := by
  rw [parseFloatRun]
  split
  · exact ⟨trivial, by simp⟩
  · refine ⟨?_, by simp⟩
    show 0 < 10 ^ _
    positivity

lemma wfVal_jsMulInt (x : JsNum) (c : Int) (h : WfNum x ∧ x ≠ .negInf) :
    WfNum (jsMulInt x c) ∧ jsMulInt x c ≠ .negInf := by
  cases x with
  | nan => exact ⟨trivial, by simp [jsMulInt]⟩
  | negInf => exact absurd rfl h.2
  | posInf => exact h.1.elim
  | num f => exact ⟨h.1, by simp [jsMulInt]⟩

lemma wf_parseSimDate (s : String) : WfNum (parseSimDate s) := by
  rw [parseSimDate]
  split
  · trivial
  · simp only []
    split
    · exact Nat.one_pos
    · split
      · exact Nat.one_pos
      · split
        · exact Nat.one_pos
        · split
          · refine (wfVal_jsMulInt _ _ ?_).1
            split
            · exact wfVal_jsMulInt _ _ (wf_parseFloatRun _)
            · split
              · exact wfVal_jsMulInt _ _ (wf_parseFloatRun _)
              · exact wf_parseFloatRun _
          · split
            · exact (wfVal_jsMulInt _ _ (wf_parseFloatRun _)).1
            · split
              · exact (wfVal_jsMulInt _ _ (wf_parseFloatRun _)).1
              · exact (wf_parseFloatRun _).1

lemma frac_cross_trans {f g h : Frac} (hgd : 0 < g.den)
    (h1 : g.num * (f.den : Int) ≤ f.num * (g.den : Int))
    (h2 : h.num * (g.den : Int) ≤ g.num * (h.den : Int)) :
    h.num * (f.den : Int) ≤ f.num * (h.den : Int) := by
  have hgd' : (0 : Int) < g.den := by exact_mod_cast hgd
  have hA := mul_le_mul_of_nonneg_right h1 (by positivity : (0 : Int) ≤ (h.den : Int))
  have hB := mul_le_mul_of_nonneg_right h2 (by positivity : (0 : Int) ≤ (f.den : Int))
  have hkey : h.num * (f.den : Int) * (g.den : Int) ≤ f.num * (h.den : Int) * (g.den : Int) := by
    nlinarith [hA, hB]
  exact le_of_mul_le_mul_right hkey hgd'

lemma jsle_total (a b : JsNum) (ha : WfNum a ∧ a ≠ .nan) (hb : WfNum b ∧ b ≠ .nan) :
    jsLeZero (jsSub b a) = true ∨ jsLeZero (jsSub a b) = true := by
  cases a with
  | nan => exact absurd rfl ha.2
  | posInf => exact ha.1.elim
  | negInf =>
    cases b with
    | nan => exact absurd rfl hb.2
    | posInf => exact hb.1.elim
    | negInf => left; rfl
    | num g => right; rfl
  | num f =>
    cases b with
    | nan => exact absurd rfl hb.2
    | posInf => exact hb.1.elim
    | negInf => left; rfl
    | num g =>
      simp only [jsSub, jsLeZero, decide_eq_true_eq]
      rcases le_total (g.num * (f.den : Int)) (f.num * (g.den : Int)) with h | h
      · left; linarith
      · right; linarith

lemma jsle_trans (a b c : JsNum)
    (ha : WfNum a ∧ a ≠ .nan) (hb : WfNum b ∧ b ≠ .nan) (hc : WfNum c ∧ c ≠ .nan)
    (h1 : jsLeZero (jsSub b a) = true) (h2 : jsLeZero (jsSub c b) = true) :
    jsLeZero (jsSub c a) = true := by
  cases a with
  | nan => exact absurd rfl ha.2
  | posInf => exact ha.1.elim
  | negInf =>
    cases c with
    | nan => exact absurd rfl hc.2
    | posInf => exact hc.1.elim
    | negInf => rfl
    | num h' =>
      cases b with
      | nan => exact absurd rfl hb.2
      | posInf => exact hb.1.elim
      | negInf => simp [jsSub, jsLeZero] at h2
      | num g => simp [jsSub, jsLeZero] at h1
  | num f =>
    cases c with
    | nan => exact absurd rfl hc.2
    | posInf => exact hc.1.elim
    | negInf => rfl
    | num h' =>
      cases b with
      | nan => exact absurd rfl hb.2
      | posInf => exact hb.1.elim
      | negInf => simp [jsSub, jsLeZero] at h2
      | num g =>
        simp only [jsSub, jsLeZero, decide_eq_true_eq, sub_nonpos] at h1 h2 ⊢
        exact frac_cross_trans hb.1 h1 h2

lemma jsle_to_ge (a b : JsNum)
    (ha : WfNum a ∧ a ≠ .nan) (hb : WfNum b ∧ b ≠ .nan)
    (h : jsLeZero (jsSub b a) = true) : jsGe a b = true := by
  cases a with
  | nan => exact absurd rfl ha.2
  | posInf => exact ha.1.elim
  | negInf =>
    cases b with
    | nan => exact absurd rfl hb.2
    | posInf => exact hb.1.elim
    | negInf => rfl
    | num g => simp [jsSub, jsLeZero] at h
  | num f =>
    cases b with
    | nan => exact absurd rfl hb.2
    | posInf => exact hb.1.elim
    | negInf => rfl
    | num g =>
      simp only [jsSub, jsLeZero, decide_eq_true_eq, sub_nonpos] at h
      simp only [jsGe, decide_eq_true_eq]
      exact h

lemma lookupData_none_iff (ld : List (String × List LogRecord)) (fp : String) :
    lookupData ld fp = none ↔ ld.find? (fun p => p.1 == fp) = none := by
  rw [lookupData]
  cases ld.find? (fun p => p.1 == fp) <;> simp

lemma lookupData_append_self (ld : List (String × List LogRecord)) (fp : String)
    (data : List LogRecord) (h : lookupData ld fp = none) :
    lookupData (ld ++ [(fp, data)]) fp = some data := by
  rw [lookupData, List.find?_append, (lookupData_none_iff ld fp).mp h]
  simp [List.find?]

lemma any_filter_ne (l : List String) (fp : String) (g : String → Bool)
    (hg : g fp = false) :
    (l.filter (fun f => f != fp)).any g = l.any g := by
  induction l with
  | nil => rfl
  | cons x t ih =>
    by_cases hx : x = fp
    · subst hx
      simp [List.filter_cons, List.any_cons, hg, ih]
    · simp [List.filter_cons, List.any_cons, hx, ih]

lemma logPasses_erase_unloaded (st : AppState) (fp : String)
    (h : lookupData st.loadedData fp = none) (r : LogRecord) :
    logPasses { st with activeFilters := { st.activeFilters with
        selectedPeriods := st.activeFilters.selectedPeriods.filter (fun f => f != fp) } } r
      = logPasses st r := by
  rw [logPasses, logPasses]
  simp only []
  rw [any_filter_ne]
  simp [h]

lemma outcomeOf_orChain (l : List (Option String)) :
    outcomeOf (orChain l)
      = match firstNonEmpty l with
        | some s => DiagOutcome.shown (jsTrim s)
        | none => DiagOutcome.errorShown := by
  induction l with
  | nil => rfl
  | cons o rest ih =>
    cases rest with
    | nil =>
      cases o with
      | none => rfl
      | some s =>
        by_cases hs : s = "" <;> simp [orChain, firstNonEmpty, outcomeOf, hs]
    | cons o2 rest2 =>
      cases o with
      | none => simpa [orChain, jsOrStr, firstNonEmpty] using ih
      | some s =>
        by_cases hs : s = ""
        · simpa [orChain, jsOrStr, firstNonEmpty, hs] using ih
        · simp [orChain, jsOrStr, firstNonEmpty, hs, outcomeOf]

/-! ## The claims -/

/-- Claim C1: in any application state whose `allLogs` is the rebuilt
merge of the loaded shards (the invariant the program maintains), a
record appears in `getFilteredLogs`' output iff it is contained — by
object identity — in the loaded array of at least one identifier in
`selectedPeriods` AND all four predicates hold: (1) verbose or not
low-importance; (2) the lowercased search is a substring of the
lowercased title, description, version, or some keyword; (3) the region
filter is `all`, or `sol_system` with one of the fixed region keywords
contained in the record's region, or the filter region is contained in
the record's region; (4) criticalOnly is off, or the type is
`Critical Event`, or the record is active.  In particular no record
from an unselected or unloaded shard ever appears.  (The claim's
"subsequence … limited to selected/loaded shards" is read, as the claim
itself elaborates, as this membership characterisation; the sort
reorders but never adds or drops records.) -/
theorem getFilteredLogs_mem_iff (st : AppState)
    (hinv : st.allLogs = rebuildAllLogs st.loadedData) (r : LogRecord) :
    r ∈ getFilteredLogs st ↔
      ((∃ fp ∈ st.activeFilters.selectedPeriods, ∃ arr,
          lookupData st.loadedData fp = some arr ∧ r ∈ arr) ∧
       (st.activeFilters.verbose = true ∨ r.importance ≠ "low") ∧
       (strIncludes (toLowerCase r.title) (toLowerCase st.activeFilters.search) = true ∨
        strIncludes (toLowerCase r.description) (toLowerCase st.activeFilters.search) = true ∨
        strIncludes (toLowerCase r.version) (toLowerCase st.activeFilters.search) = true ∨
        (∃ ks, r.keywords = some ks ∧ ∃ k ∈ ks,
          strIncludes (toLowerCase k) (toLowerCase st.activeFilters.search) = true)) ∧
       (toLowerCase st.activeFilters.region = "all" ∨
        (toLowerCase st.activeFilters.region = "sol_system" ∧
         ∃ kw ∈ ["mars", "moon", "solar", "earth", "global_earth"],
           strIncludes (toLowerCase r.region) kw = true) ∨
        (toLowerCase st.activeFilters.region ≠ "all" ∧
         toLowerCase st.activeFilters.region ≠ "sol_system" ∧
         strIncludes (toLowerCase r.region) (toLowerCase st.activeFilters.region) = true)) ∧
       (st.activeFilters.criticalOnly = false ∨ r.type = "Critical Event" ∨
        r.is_active = some true)) := by
  rw [getFilteredLogs, mem_isort, List.mem_filter, logPasses_iff]
  constructor
  · rintro ⟨-, h⟩
    exact h
  · intro h
    refine ⟨?_, h⟩
    obtain ⟨fp, hfp, arr, hlk, hr⟩ := h.1
    rw [hinv]
    exact mem_rebuild_of_lookup hlk hr

/-- Claim C1 witness: the membership characterisation applied at a
concrete one-shard state, concluding by `.mpr` that the record shows up
in the filtered output. -/
theorem getFilteredLogs_mem_iff_witness : wRec ∈ getFilteredLogs wState :=
  (getFilteredLogs_mem_iff wState rfl wRec).mpr
    ⟨⟨"yearly/1945.json", by decide, [wRec], rfl, by decide⟩,
     Or.inr (by decide),
     Or.inl (by decide),
     Or.inl (by decide),
     Or.inl rfl⟩

/-- Claim C2: `parseSimDate` meets the specification's test vector:
`"present"` ↦ 2026, `"near future"` ↦ 3000, `"65 Million BC"` ↦
-65 000 000, `"1945"` ↦ 1945, `""` ↦ -Infinity, `"no digits here"` ↦ 0.
Purity in the input string is definitional: `parseSimDate` is a Lean
function of the string alone, with no other state in scope. -/
theorem parseSimDate_test_vector :
    parseSimDate "present" = JsNum.int 2026 ∧
    parseSimDate "near future" = JsNum.int 3000 ∧
    parseSimDate "65 Million BC" = JsNum.int (-65000000) ∧
    parseSimDate "1945" = JsNum.int 1945 ∧
    parseSimDate "" = JsNum.negInf ∧
    parseSimDate "no digits here" = JsNum.int 0 := by
  refine ⟨by decide, by decide, by decide, by decide, by decide, by decide⟩

/-- Claim C3 (amended): provided no record's date parses to `NaN`
(which the date `"a.b"` of the counterexample shows is possible), the
output of `getFilteredLogs` is ordered consistently with `parseSimDate`:
ascending for `date-asc` and descending (every adjacent pair `(a, b)`
satisfies `parseSimDate a.date >= parseSimDate b.date` in JS semantics)
for any other sort value. -/
theorem getFilteredLogs_sorted (st : AppState)
    (hnn : ∀ r ∈ st.allLogs, parseSimDate r.date ≠ JsNum.nan) :
    (st.activeFilters.sort = "date-asc" →
      (getFilteredLogs st).Chain'
        (fun a b => jsGe (parseSimDate b.date) (parseSimDate a.date) = true)) ∧
    (st.activeFilters.sort ≠ "date-asc" →
      (getFilteredLogs st).Chain'
        (fun a b => jsGe (parseSimDate a.date) (parseSimDate b.date) = true)) := by
  have hmem : ∀ r ∈ st.allLogs.filter (logPasses st),
      WfNum (parseSimDate r.date) ∧ parseSimDate r.date ≠ JsNum.nan :=
    fun r hr => ⟨wf_parseSimDate _, hnn r (List.mem_filter.mp hr).1⟩
  constructor
  · intro hsort
    have hsc : ∀ a b : LogRecord, sortCompare st.activeFilters.sort a b
        = jsSub (parseSimDate a.date) (parseSimDate b.date) := by
      intro a b
      simp [sortCompare, hsort]
    rw [getFilteredLogs]
    apply List.Pairwise.chain'
    have hpw := pairwise_isort
      (fun a b => jsLeZero (sortCompare st.activeFilters.sort a b))
      (st.allLogs.filter (logPasses st))
      (fun a ha b hb => by
        simp only []
        rw [hsc, hsc]
        exact jsle_total (parseSimDate b.date) (parseSimDate a.date) (hmem b hb) (hmem a ha))
      (fun a ha b hb c hc h1 h2 => by
        simp only [] at h1 h2 ⊢
        rw [hsc] at h1 h2 ⊢
        exact jsle_trans (parseSimDate c.date) (parseSimDate b.date) (parseSimDate a.date)
          (hmem c hc) (hmem b hb) (hmem a ha) h2 h1)
    exact List.Pairwise.imp_of_mem
      (fun {a b} ha hb hr => by
        rw [mem_isort] at ha hb
        simp only [] at hr
        rw [hsc] at hr
        exact jsle_to_ge (parseSimDate b.date) (parseSimDate a.date)
          (hmem b hb) (hmem a ha) hr)
      hpw
  · intro hsort
    have hsc : ∀ a b : LogRecord, sortCompare st.activeFilters.sort a b
        = jsSub (parseSimDate b.date) (parseSimDate a.date) := by
      intro a b
      simp [sortCompare, hsort]
    rw [getFilteredLogs]
    apply List.Pairwise.chain'
    have hpw := pairwise_isort
      (fun a b => jsLeZero (sortCompare st.activeFilters.sort a b))
      (st.allLogs.filter (logPasses st))
      (fun a ha b hb => by
        simp only []
        rw [hsc, hsc]
        exact jsle_total (parseSimDate a.date) (parseSimDate b.date) (hmem a ha) (hmem b hb))
      (fun a ha b hb c hc h1 h2 => by
        simp only [] at h1 h2 ⊢
        rw [hsc] at h1 h2 ⊢
        exact jsle_trans (parseSimDate a.date) (parseSimDate b.date) (parseSimDate c.date)
          (hmem a ha) (hmem b hb) (hmem c hc) h1 h2)
    exact List.Pairwise.imp_of_mem
      (fun {a b} ha hb hr => by
        rw [mem_isort] at ha hb
        simp only [] at hr
        rw [hsc] at hr
        exact jsle_to_ge (parseSimDate a.date) (parseSimDate b.date)
          (hmem a ha) (hmem b hb) hr)
      hpw

/-- Claim C3 counterexample: with a `NaN`-dated record (date `"a.b"`)
loaded, the comparator returns `NaN` against its neighbours, ES
`SortCompare` treats that as equality, and the `date-desc` output
`[5, NaN, 3]` has the adjacent pair `(NaN, 3)` for which JS
`parseSimDate(a.date) >= parseSimDate(b.date)` is false. -/
theorem getFilteredLogs_sorted_counterexample :
    nanState.activeFilters.sort = "date-desc" ∧
    ¬ (getFilteredLogs nanState).Chain'
        (fun a b => jsGe (parseSimDate a.date) (parseSimDate b.date) = true) := by
  refine ⟨rfl, fun hch => ?_⟩
  rw [show getFilteredLogs nanState = [nanRec1, nanRec2, nanRec3] from by decide] at hch
  rw [List.chain'_cons, List.chain'_cons] at hch
  exact absurd hch.2.1 (by decide)

/-- Claim C3 witness: the amended sortedness theorem applied at a
concrete `date-desc` state with non-`NaN` dates. -/
theorem getFilteredLogs_sorted_witness :
    (getFilteredLogs sortState).Chain'
      (fun a b => jsGe (parseSimDate a.date) (parseSimDate b.date) = true) :=
  (getFilteredLogs_sorted sortState (by decide)).2 (by decide)

/-- Claim C4 (amended): for an identifier that is not yet cached and
whose fetch succeeds, calling `loadDataset` twice sequentially issues
exactly one fetch, the second call is a no-op, and the merged `allLogs`
equals the concatenation, in cache-insertion order, of all cached
shards' arrays — each record occurrence of a loaded shard contributing
exactly once (the occurrence counts add up shard by shard).  The
unamended claim fails when the first fetch fails: see the
counterexample. -/
theorem loadDataset_idempotent (net : String → Option (List LogRecord))
    (st : AppState) (fp : String) (data : List LogRecord)
    (huncached : lookupData st.loadedData fp = none) (hnet : net fp = some data) :
    (loadDataset net st fp).2 + (loadDataset net (loadDataset net st fp).1 fp).2 = 1 ∧
    (loadDataset net (loadDataset net st fp).1 fp).1 = (loadDataset net st fp).1 ∧
    (loadDataset net st fp).1.loadedData = st.loadedData ++ [(fp, data)] ∧
    (loadDataset net st fp).1.allLogs
      = ((st.loadedData ++ [(fp, data)]).map Prod.snd).flatten ∧
    (∀ r : LogRecord, (loadDataset net st fp).1.allLogs.count r
      = (((loadDataset net st fp).1.loadedData.map Prod.snd).map (List.count r)).sum) := by
  have h1 : loadDataset net st fp
      = (({ st with
            loadedData := st.loadedData ++ [(fp, data)]
            allLogs := rebuildAllLogs (st.loadedData ++ [(fp, data)]) } : AppState), 1) := by
    rw [loadDataset, huncached, hnet]
  have h2 : loadDataset net (loadDataset net st fp).1 fp = ((loadDataset net st fp).1, 0) := by
    rw [h1]
    rw [loadDataset]
    simp only []
    rw [lookupData_append_self st.loadedData fp data huncached]
  refine ⟨by rw [h2, h1]; rfl, by rw [h2], by rw [h1], ?_, ?_⟩
  · rw [h1]
    exact rebuildAllLogs_eq _
  · intro r
    rw [h1]
    simp only []
    rw [rebuildAllLogs_eq, List.count_flatten]

/-- Claim C4 counterexample: when the fetch fails, nothing is cached,
so two sequential `loadDataset` calls for the same identifier issue two
fetches, not "exactly one" as the unconditional claim states. -/
theorem loadDataset_twice_two_fetches :
    (loadDataset failNet emptyState "yearly/2026.json").2
      + (loadDataset failNet (loadDataset failNet emptyState "yearly/2026.json").1
          "yearly/2026.json").2 = 2 ∧
    ¬ ((loadDataset failNet emptyState "yearly/2026.json").2
      + (loadDataset failNet (loadDataset failNet emptyState "yearly/2026.json").1
          "yearly/2026.json").2 = 1) := by
  refine ⟨by decide, by decide⟩

/-- Claim C4 witness: the amended theorem applied at a concrete empty
state and a succeeding network oracle. -/
theorem loadDataset_idempotent_witness :
    (loadDataset wNet emptyState "yearly/1945.json").2
      + (loadDataset wNet (loadDataset wNet emptyState "yearly/1945.json").1
          "yearly/1945.json").2 = 1 :=
  (loadDataset_idempotent wNet emptyState "yearly/1945.json" wData rfl rfl).1

/-- Claim C5: a fetch failure for one shard is caught and leaves the
entire dataset store unchanged (so in particular that identifier stays
absent from the cache), it does not affect subsequent loads of other
shards, and rendering is unaffected (`getFilteredLogs` — a total
function, so nothing can crash — returns exactly what it returned
before). -/
theorem loadDataset_failure_atomic (net : String → Option (List LogRecord))
    (st : AppState) (fp : String) (hnet : net fp = none) :
    (loadDataset net st fp).1 = st ∧
    (lookupData st.loadedData fp = none →
      lookupData (loadDataset net st fp).1.loadedData fp = none) ∧
    (∀ fp2, loadDataset net (loadDataset net st fp).1 fp2 = loadDataset net st fp2) ∧
    getFilteredLogs (loadDataset net st fp).1 = getFilteredLogs st := by
  have h1 : (loadDataset net st fp).1 = st := by
    rw [loadDataset]
    cases hl : lookupData st.loadedData fp with
    | some arr => rfl
    | none => rw [hnet]
  exact ⟨h1, fun h2 => by rw [h1]; exact h2, fun fp2 => by rw [h1], by rw [h1]⟩

/-- Claim C5 witness: the failure-atomicity theorem applied at a
concrete loaded state and an always-failing network oracle. -/
theorem loadDataset_failure_atomic_witness :
    (loadDataset failNet failState "eras/ancient.json").1 = failState ∧
    getFilteredLogs (loadDataset failNet failState "eras/ancient.json").1
      = getFilteredLogs failState :=
  ⟨(loadDataset_failure_atomic failNet failState "eras/ancient.json" rfl).1,
   (loadDataset_failure_atomic failNet failState "eras/ancient.json" rfl).2.2.2⟩

/-- Claim C6: ticker selection is independent of the
search/region/criticalOnly/verbose filter state — two states over the
same loaded data select identical ticker records, namely exactly the
loaded records with `is_active === true`; in particular toggling
`criticalOnly` (the severity handler) never changes the ticker. -/
theorem tickerActiveLogs_independent (st1 st2 : AppState)
    (h : st1.allLogs = st2.allLogs) :
    tickerActiveLogs st1 = tickerActiveLogs st2 ∧
    tickerActiveLogs st1 = st1.allLogs.filter (fun log => log.is_active == some true) ∧
    (∀ b : Bool, tickerActiveLogs (setCriticalOnly st1 b) = tickerActiveLogs st1) := by
  refine ⟨?_, rfl, fun b => rfl⟩
  rw [tickerActiveLogs, tickerActiveLogs, h]

/-- Claim C6 witness: the independence theorem applied at two concrete
states sharing `allLogs` but differing in every filter field. -/
theorem tickerActiveLogs_independent_witness :
    tickerActiveLogs tickState1 = tickerActiveLogs tickState2 ∧
    tickerActiveLogs (setCriticalOnly tickState1 true) = tickerActiveLogs tickState1 :=
  ⟨(tickerActiveLogs_independent tickState1 tickState2 rfl).1,
   (tickerActiveLogs_independent tickState1 tickState2 rfl).2.2 true⟩

/-- Claim C7 counterexample: the non-empty string `"a.b"` contains
neither `present` nor `future` and contains no run of digits, yet
`parseSimDate` returns `NaN`, not the fallback `0`: the regex `[\d.]+`
also matches a dot-only run, and `parseFloat "."` is `NaN`. -/
theorem parseSimDate_dot_only_not_zero :
    "a.b" ≠ "" ∧
    strIncludes (toLowerCase "a.b") "present" = false ∧
    strIncludes (toLowerCase "a.b") "future" = false ∧
    (∀ c ∈ "a.b".data, c.isDigit = false) ∧
    parseSimDate "a.b" = JsNum.nan ∧
    parseSimDate "a.b" ≠ JsNum.int 0 := by
  refine ⟨by decide, by decide, by decide, by decide, by decide, by decide⟩

/-- Claim C7 (amended): for every non-empty date string that contains
neither `present` nor `future` (case-insensitively) and contains no
digit AND no `'.'` character, `parseSimDate` returns the fallback value
`0` rather than erroring. -/
theorem parseSimDate_fallback_zero (s : String) (h0 : s ≠ "")
    (hp : strIncludes (toLowerCase s) "present" = false)
    (hf : strIncludes (toLowerCase s) "future" = false)
    (hn : ∀ c ∈ s.data, isNumChar c = false) :
    parseSimDate s = JsNum.int 0 := by
  have hnf : strIncludes (toLowerCase s) "near future" = false :=
    strIncludes_trans_of_infix _ _ _ hf (by decide)
  have hrun : firstNumRun (toLowerCase s).data = none := by
    apply firstNumRun_eq_none
    intro c hc
    obtain ⟨c0, hc0, rfl⟩ := List.mem_map.mp hc
    rw [isNumChar_toLower]
    exact hn c0 hc0
  unfold parseSimDate
  rw [if_neg h0]
  simp only [hp, hf, hnf, hrun, Bool.or_self, if_false, Bool.false_eq_true]

/-- Claim C7 witness: the amended theorem applied at the concrete input
`"no digits here"`. -/
theorem parseSimDate_fallback_zero_witness :
    parseSimDate "no digits here" = JsNum.int 0 :=
  parseSimDate_fallback_zero "no digits here" (by decide) (by decide) (by decide) (by decide)

/-- Claim C8: `getEra` maps a date string to one of pre-history /
antiquity / modern / future by rules checked in order with first match
winning: missing (empty) input gives `modern`; containing `billion`,
`million`, `bc` or `pre-history` gives `pre-history`; else containing
`present` or `future` gives `future`; else the first digit run parsed
as a year gives `antiquity` below 1500, `future` above 2025 and
`modern` otherwise; with no digits the result is `modern`. -/
theorem getEra_rules (s : String) :
    (s = "" → getEra s = "modern") ∧
    (s ≠ "" →
      (strIncludes (toLowerCase s) "billion" = true ∨ strIncludes (toLowerCase s) "million" = true ∨
       strIncludes (toLowerCase s) "bc" = true ∨ strIncludes (toLowerCase s) "pre-history" = true) →
      getEra s = "pre-history") ∧
    (s ≠ "" →
      strIncludes (toLowerCase s) "billion" = false → strIncludes (toLowerCase s) "million" = false →
      strIncludes (toLowerCase s) "bc" = false → strIncludes (toLowerCase s) "pre-history" = false →
      (strIncludes (toLowerCase s) "present" = true ∨ strIncludes (toLowerCase s) "future" = true) →
      getEra s = "future") ∧
    (s ≠ "" →
      strIncludes (toLowerCase s) "billion" = false → strIncludes (toLowerCase s) "million" = false →
      strIncludes (toLowerCase s) "bc" = false → strIncludes (toLowerCase s) "pre-history" = false →
      strIncludes (toLowerCase s) "present" = false → strIncludes (toLowerCase s) "future" = false →
      ∀ ds, firstDigitRun s.data = some ds →
        getEra s = (if digitsToNat ds < 1500 then "antiquity"
                    else if digitsToNat ds > 2025 then "future" else "modern")) ∧
    (s ≠ "" →
      strIncludes (toLowerCase s) "billion" = false → strIncludes (toLowerCase s) "million" = false →
      strIncludes (toLowerCase s) "bc" = false → strIncludes (toLowerCase s) "pre-history" = false →
      strIncludes (toLowerCase s) "present" = false → strIncludes (toLowerCase s) "future" = false →
      firstDigitRun s.data = none → getEra s = "modern") := by
  refine ⟨?_, ?_, ?_, ?_, ?_⟩
  · intro h
    rw [getEra, if_pos h]
  · intro h0 hkw
    rw [getEra, if_neg h0]
    simp only []
    rw [if_pos]
    rcases hkw with h | h | h | h <;> simp [h]
  · intro h0 h1 h2 h3 h4 hpf
    rw [getEra, if_neg h0]
    simp only [h1, h2, h3, h4, Bool.or_self, Bool.or_false, Bool.false_or, if_false,
      Bool.false_eq_true]
    rw [if_pos]
    rcases hpf with h | h <;> simp [h]
  · intro h0 h1 h2 h3 h4 h5 h6 ds hds
    rw [getEra, if_neg h0]
    simp only [h1, h2, h3, h4, h5, h6, hds, Bool.or_self, Bool.or_false, Bool.false_or,
      if_false, Bool.false_eq_true]
  · intro h0 h1 h2 h3 h4 h5 h6 hds
    rw [getEra, if_neg h0]
    simp only [h1, h2, h3, h4, h5, h6, hds, Bool.or_self, Bool.or_false, Bool.false_or,
      if_false, Bool.false_eq_true]

/-- Claim C8 witness: the rule conjuncts applied at concrete inputs,
one per rule. -/
theorem getEra_rules_witness :
    getEra "" = "modern" ∧
    getEra "65 Million BC" = "pre-history" ∧
    getEra "Present Day" = "future" ∧
    getEra "1347 AD" = "antiquity" ∧
    getEra "2077" = "future" ∧
    getEra "no digits" = "modern" :=
  ⟨(getEra_rules "").1 rfl,
   (getEra_rules "65 Million BC").2.1 (by decide) (Or.inr (Or.inl (by decide))),
   (getEra_rules "Present Day").2.2.1 (by decide) (by decide) (by decide) (by decide) (by decide)
     (Or.inl (by decide)),
   by
     have := (getEra_rules "1347 AD").2.2.2.1 (by decide) (by decide) (by decide) (by decide)
       (by decide) (by decide) (by decide) ("1347".data) (by decide)
     simpa using this,
   by
     have := (getEra_rules "2077").2.2.2.1 (by decide) (by decide) (by decide) (by decide)
       (by decide) (by decide) (by decide) ("2077".data) (by decide)
     simpa using this,
   (getEra_rules "no digits").2.2.2.2 (by decide) (by decide) (by decide) (by decide)
     (by decide) (by decide) (by decide) (by decide)⟩

/-- Claim C9 (amended): for a successful (2xx, JSON) diagnostic
response the displayed text is the trimmed value of the first of the
fields `reply`, `response`, `text`, `result`, `output`, `message`,
`content` that is present with a non-empty value (first such wins), and
the labeled error path is taken iff no listed field has a non-empty
value — or the request failed, returned non-2xx, or the body was not
JSON.  The unamended "first present wins" fails on present-but-empty
fields: see the counterexample. -/
theorem runDiagnostic_field_extraction (d : DiagData) :
    (runDiagnosticOutcome (.httpResponse true (some d))
      = match firstNonEmpty (diagFields d) with
        | some s => DiagOutcome.shown (jsTrim s)
        | none => DiagOutcome.errorShown) ∧
    runDiagnosticOutcome .netError = .errorShown ∧
    (∀ body, runDiagnosticOutcome (.httpResponse false body) = .errorShown) ∧
    runDiagnosticOutcome (.httpResponse true none) = .errorShown := by
  refine ⟨?_, rfl, fun body => rfl, rfl⟩
  have h1 : runDiagnosticOutcome (.httpResponse true (some d))
      = outcomeOf (orChain (diagFields d)) := rfl
  rw [h1, outcomeOf_orChain]

/-- Claim C9 counterexample: with `reply` present but `""`, the `||`
chain skips it — the displayed text is `"hello"` from `response`, not
the first *present* field's value; and when the only present field is
the empty `reply`, the error path is taken even though a listed field
is present, contradicting the claim's "iff none present". -/
theorem runDiagnostic_first_present_counterexample :
    emptyReplyData.reply = some "" ∧
    runDiagnosticOutcome (.httpResponse true (some emptyReplyData)) = .shown "hello" ∧
    "hello" ≠ "" ∧
    onlyEmptyData.reply = some "" ∧
    runDiagnosticOutcome (.httpResponse true (some onlyEmptyData)) = .errorShown := by
  refine ⟨rfl, by decide, by decide, rfl, by decide⟩

/-- Claim C10: `selectedPeriods` can hold an identifier with no cache
entry — reachable via a toggle click whose fetch fails, which still
appends the identifier (first conjunct) — and for every such state
`getFilteredLogs` (a total function, so it cannot throw) returns
exactly what it returns with that identifier removed from the
selection: an unloaded selected identifier behaves as unselected, and
no record is ever attributed to it. -/
theorem unloaded_selected_period (net : String → Option (List LogRecord))
    (st : AppState) (fp : String) :
    (net fp = none → lookupData st.loadedData fp = none →
      st.activeFilters.selectedPeriods.contains fp = false →
      fp ∈ (toggleFilterButton net st fp).1.activeFilters.selectedPeriods ∧
      lookupData (toggleFilterButton net st fp).1.loadedData fp = none) ∧
    (lookupData st.loadedData fp = none →
      getFilteredLogs st = getFilteredLogs { st with activeFilters := { st.activeFilters with
        selectedPeriods := st.activeFilters.selectedPeriods.filter (fun f => f != fp) } }) := by
  constructor
  · intro hnet huncached hunsel
    have hload : loadDataset net st fp = (st, 1) := by
      rw [loadDataset, huncached, hnet]
    rw [toggleFilterButton, if_neg (by rw [hunsel]; exact Bool.false_ne_true), hload]
    exact ⟨by simp, huncached⟩
  · intro huncached
    rw [getFilteredLogs, getFilteredLogs]
    have hfilter :
        List.filter (logPasses { st with activeFilters := { st.activeFilters with
          selectedPeriods := st.activeFilters.selectedPeriods.filter (fun f => f != fp) } })
          st.allLogs
        = List.filter (logPasses st) st.allLogs := by
      apply List.filter_congr
      intro a _
      exact logPasses_erase_unloaded st fp huncached a
    rw [hfilter]

/-- Claim C10 witness: both conjuncts applied at a concrete state and
failing network oracle. -/
theorem unloaded_selected_period_witness :
    "eras/ancient.json"
      ∈ (toggleFilterButton failNet failState "eras/ancient.json").1.activeFilters.selectedPeriods ∧
    getFilteredLogs failState
      = getFilteredLogs { failState with activeFilters := { failState.activeFilters with
          selectedPeriods := failState.activeFilters.selectedPeriods.filter
            (fun f => f != "eras/ancient.json") } } :=
  ⟨((unloaded_selected_period failNet failState "eras/ancient.json").1 rfl rfl (by decide)).1,
   (unloaded_selected_period failNet failState "eras/ancient.json").2 rfl⟩

end SimLog
